import Mathlib

/-!
Verification development for the leisure-time-projects repository.

Two programs are embedded:

* the generic concurrent task executor (`TaskExecutor[RType]` with
  `InitializeTaskExecutor`, `AddTask`, `GetResults`, `GetResultByTaskId`,
  `JobsDone`, `BlockOn`, `Close` and the worker loop `TaskWorker`), modelled
  as an interleaving small-step transition system over an explicit shared
  state, with the generic result type instantiated at `Nat`;
* the port scanner (`ScanPort`, `ScanRange`, `ScanSpecificPorts` and the
  static `commonPorts` table), with the network dial outcome abstracted as
  an oracle `dial : Int → Bool` and the channel pipeline of each scan
  function modelled as its own small-step transition system.

Go `int`/`int32` values are modelled as `Int`; every trace considered stays
far below the `int32` range, so wraparound is out of reach. Go maps are
modelled as association lists where the most recent write is found first,
which reproduces the overwrite semantics of `m[k] = v`.
-/

namespace TaskExec

/-- Shared state of one `TaskExecutor[Nat]` instance together with the ghost
history needed to state the claims.  Mutable Go fields: `jobcounter` is the
`atomic.Int32`, `queue` the buffered contents of the `jobs` channel (front =
oldest), `closed` whether `close(jobs)` has run, `results` the results map as
an association list (newest write first).  Worker bookkeeping: `running` holds
the ids of tasks currently being executed by busy workers, `idle` counts
workers alive and blocked on the channel receive, `exited` counts workers that
observed closure and called `wg.Done()`.  `pendingInc` records that an
`AddTask` call has sent its task to the channel but has not yet executed
`jobcounter.Add(1)` (the two operations are separate in the source).  Ghost
fields: `submitted` lists the task ids in submission order, `takenIds` the ids
ever received by a worker. -/
structure ExecState where
  workersTotal : Nat
  jobcounter : Int
  pendingInc : Bool
  queue : List Int
  running : List Int
  idle : Nat
  exited : Nat
  closed : Bool
  results : List (Int × Nat)
  submitted : List Int
  takenIds : List Int
deriving Repr, DecidableEq

/-- Capacity of the `jobs` channel: `make(chan Task[RType], 10)`. -/
def jobsChanCap : Nat := 10

/-- `InitializeTaskExecutor[RType](workers)`: fresh counter, empty channel,
empty results map, and `for workerid := range workers` spawning goroutines —
`range` over a non-positive Go int runs zero iterations, so `workers.toNat`
workers are spawned, each immediately blocked on the channel receive.
`wg.Add(1)` runs once per spawned worker.  The function performs no
validation and has no error return. -/
def initializeTaskExecutor (workers : Int) : ExecState :=
  { workersTotal := workers.toNat
    jobcounter := 0
    pendingInc := false
    queue := []
    running := []
    idle := workers.toNat
    exited := 0
    closed := false
    results := []
    submitted := []
    takenIds := [] }

/-- One interleaving step of the executor and its client.  The client
(submitter / closer) is the single `main` goroutine, which is why `enqueue`
requires no other submission pending and `closeQueue` requires the previous
`AddTask` to have completed its increment.

* `enqueue` and `incCounter` are the two halves of `AddTask`: the task is
  built with `id = jobcounter.Load()` and sent to the channel, and only then
  is `jobcounter.Add(1)` executed.
* `takeTask` is a worker's `task, more := <-taskexecutor.jobs` with
  `more = true`; `finishTask` is the rest of that loop iteration: run the
  job, write `results[task.id] = returnValue` under the mutex, and decrement
  the counter (`Load` then `Swap(old-1)`, taken as one step here: every trace
  below has at most one concurrent decrementer, for which the pair is
  equivalent to an atomic decrement).
* `closeQueue` is the successful arm of `Close()`: the spin loop has observed
  `JobsDone()` (`jobcounter.Load() == 0`) and runs `close(jobs)`.
* `exitWorker` is a worker's receive returning `more = false`, which per Go
  semantics happens only once the channel is closed **and** its buffer is
  drained; the worker logs, calls `wg.Done()` and returns. -/
inductive ExecStep : ExecState → ExecState → Prop
  | enqueue (s : ExecState) (hopen : s.closed = false) (hp : s.pendingInc = false)
      (hcap : s.queue.length < jobsChanCap) :
      ExecStep s { s with queue := s.queue ++ [s.jobcounter],
                          submitted := s.submitted ++ [s.jobcounter],
                          pendingInc := true }
  | incCounter (s : ExecState) (hp : s.pendingInc = true) :
      ExecStep s { s with jobcounter := s.jobcounter + 1, pendingInc := false }
  | takeTask (s : ExecState) (id : Int) (rest : List Int) (hq : s.queue = id :: rest)
      (hidle : 0 < s.idle) :
      ExecStep s { s with queue := rest, running := id :: s.running,
                          idle := s.idle - 1, takenIds := s.takenIds ++ [id] }
  | finishTask (s : ExecState) (id : Int) (v : Nat) (hrun : id ∈ s.running) :
      ExecStep s { s with running := s.running.erase id,
                          results := (id, v) :: s.results,
                          jobcounter := s.jobcounter - 1,
                          idle := s.idle + 1 }
  | closeQueue (s : ExecState) (hopen : s.closed = false) (hzero : s.jobcounter = 0)
      (hp : s.pendingInc = false) :
      ExecStep s { s with closed := true }
  | exitWorker (s : ExecState) (hclosed : s.closed = true) (hq : s.queue = [])
      (hidle : 0 < s.idle) :
      ExecStep s { s with idle := s.idle - 1, exited := s.exited + 1 }

/-- The states an executor initialized with `workers` workers can reach. -/
def ExecReach (workers : Int) (s : ExecState) : Prop :=
  Relation.ReflTransGen ExecStep (initializeTaskExecutor workers) s

/-- `taskexecutor.results[taskid]` as Go evaluates it (newest write wins). -/
def lookupResult (results : List (Int × Nat)) (taskid : Int) : Option Nat :=
  (results.find? (fun e => e.1 == taskid)).map Prod.snd

/-- `GetResultByTaskId(taskid)`: a Go map read returns the zero value `0`
when the key is absent. -/
def getResultByTaskId (s : ExecState) (taskid : Int) : Nat :=
  (lookupResult s.results taskid).getD 0

/-- The key set of the map `GetResults()` returns: one entry per distinct
task id that has ever been written. -/
def resultIds (s : ExecState) : List Int :=
  (s.results.map Prod.fst).dedup

/-- Outcome of running the body of `Close()` once more from a quiescent
state (no concurrent counter activity): the spin loop checks `JobsDone()`
first; when the counter reads `0` it runs `close(tasksexecutor.jobs)`,
which panics if the channel is already closed; otherwise it spins. -/
inductive CloseOutcome where
  | ok (s : ExecState)
  | panicClosedChannel
  | spins
deriving Repr, DecidableEq

/-- The `Close()` body on a quiescent state. -/
def closeOnce (s : ExecState) : CloseOutcome :=
  if s.jobcounter = 0 then
    if s.closed then CloseOutcome.panicClosedChannel
    else CloseOutcome.ok { s with closed := true }
  else CloseOutcome.spins

end TaskExec

namespace TaskExec

/-- Invariant maintained by every executor step: worker accounting adds up,
a worker exits only after closure, and the ids ever dispatched are exactly
the ids still running plus the ids written to the results list. -/
def WorkerInv (s : ExecState) : Prop :=
  s.idle + s.running.length + s.exited = s.workersTotal ∧
  (0 < s.exited → s.closed = true) ∧
  List.Perm s.takenIds (s.running ++ s.results.map Prod.fst)

lemma workerInv_init (workers : Int) : WorkerInv (initializeTaskExecutor workers) := by
  refine ⟨rfl, ?_, List.Perm.refl _⟩
  intro h
  simp [initializeTaskExecutor] at h

lemma workerInv_step {s t : ExecState} (h : WorkerInv s) (hst : ExecStep s t) :
    WorkerInv t := by
  obtain ⟨hcount, hclosed, hperm⟩ := h
  cases hst with
  | enqueue hopen hp hcap => exact ⟨hcount, hclosed, hperm⟩
  | incCounter hp => exact ⟨hcount, hclosed, hperm⟩
  | takeTask id rest hq hidle =>
      refine ⟨?_, hclosed, ?_⟩
      · dsimp only
        simp only [List.length_cons]
        omega
      · exact (List.perm_append_singleton id s.takenIds).trans (hperm.cons id)
  | finishTask id v hrun =>
      have hpos : 0 < s.running.length := List.length_pos.mpr (List.ne_nil_of_mem hrun)
      refine ⟨?_, hclosed, ?_⟩
      · dsimp only
        simp only [List.length_erase_of_mem hrun]
        omega
      · exact hperm.trans
          (((List.perm_cons_erase hrun).append_right (s.results.map Prod.fst)).trans
            List.perm_middle.symm)
  | closeQueue hopen hzero hp => exact ⟨hcount, fun _ => rfl, hperm⟩
  | exitWorker hcl hq hidle =>
      refine ⟨?_, fun _ => hcl, hperm⟩
      dsimp only
      omega

lemma workerInv_reach {workers : Int} {s : ExecState} (h : ExecReach workers s) :
    WorkerInv s := by
  induction h with
  | refl => exact workerInv_init workers
  | tail _ hstep ih => exact workerInv_step ih hstep

end TaskExec

namespace TaskExec

/-- C4 (counterexample): `InitializeTaskExecutor(0)` does not fail — the Go
function has no error return and performs no validation of `workerCount`.
It returns this concrete executor value, whose worker pool is empty, instead
of an `InvalidConfiguration` error. -/
theorem initialize_zero_returns_executor :
    initializeTaskExecutor 0 =
      { workersTotal := 0, jobcounter := 0, pendingInc := false, queue := [],
        running := [], idle := 0, exited := 0, closed := false, results := [],
        submitted := [], takenIds := [] } ∧
    (initializeTaskExecutor 0).workersTotal = 0 :=
  ⟨rfl, rfl⟩

/-- C4 (amended): `InitializeTaskExecutor(workerCount)` performs no
validation: for every `workerCount` it returns a fresh executor whose worker
pool has `workerCount.toNat` workers (so zero workers whenever
`workerCount ≤ 0`, and `workerCount` workers when it is positive), with the
queue open, the counter at zero and no results. -/
theorem initialize_no_validation (workers : Int) :
    (initializeTaskExecutor workers).workersTotal = workers.toNat ∧
    (initializeTaskExecutor workers).idle = workers.toNat ∧
    (initializeTaskExecutor workers).closed = false ∧
    (initializeTaskExecutor workers).jobcounter = 0 ∧
    (initializeTaskExecutor workers).exited = 0 :=
  ⟨rfl, rfl, rfl, rfl, rfl⟩

/-- State reached after: submit task (gets id 0), worker runs it (result 5,
counter back to 0), submit again (gets id 0 **again**), worker runs it
(result 7 overwrites), `Close()`, worker exits.  `BlockOn()` has returned
(all workers exited). -/
def c1Final : ExecState :=
  { workersTotal := 1, jobcounter := 0, pendingInc := false, queue := [],
    running := [], idle := 0, exited := 1, closed := true,
    results := [(0, 7), (0, 5)], submitted := [0, 0], takenIds := [0, 0] }

/-- C1: refuted by this reachable execution of the code.  Two tasks are
submitted (`N = 2`), `BlockOn()` has returned, yet `GetResults()` holds a
single entry keyed `0` — the id was reused because `AddTask` draws ids from
the same counter that task completion decrements — so the identifiers are
neither `0..N-1` nor unique. -/
theorem addTask_id_reuse_trace :
    ExecReach 1 c1Final ∧
    c1Final.exited = c1Final.workersTotal ∧
    c1Final.submitted.length = 2 ∧
    resultIds c1Final = [0] ∧
    ¬ c1Final.submitted.Nodup := by
  refine ⟨?_, rfl, rfl, by decide, by decide⟩
  refine Relation.ReflTransGen.head (ExecStep.enqueue _ rfl rfl (by decide)) ?_
  refine Relation.ReflTransGen.head (ExecStep.incCounter _ rfl) ?_
  refine Relation.ReflTransGen.head (ExecStep.takeTask _ 0 [] rfl (by decide)) ?_
  refine Relation.ReflTransGen.head (ExecStep.finishTask _ 0 5 (by decide)) ?_
  refine Relation.ReflTransGen.head (ExecStep.enqueue _ rfl rfl (by decide)) ?_
  refine Relation.ReflTransGen.head (ExecStep.incCounter _ rfl) ?_
  refine Relation.ReflTransGen.head (ExecStep.takeTask _ 0 [] rfl (by decide)) ?_
  refine Relation.ReflTransGen.head (ExecStep.finishTask _ 0 7 (by decide)) ?_
  refine Relation.ReflTransGen.head (ExecStep.closeQueue _ rfl rfl rfl) ?_
  refine Relation.ReflTransGen.head (ExecStep.exitWorker _ rfl rfl (by decide)) ?_
  exact Relation.ReflTransGen.refl

/-- State reached after: `AddTask` has sent its task (id 0) to the channel
but not yet executed `jobcounter.Add(1)`, and a fast worker has already
received the task, executed it and decremented the counter. -/
def c2Neg : ExecState :=
  { workersTotal := 1, jobcounter := -1, pendingInc := true, queue := [],
    running := [], idle := 1, exited := 0, closed := false,
    results := [(0, 9)], submitted := [0], takenIds := [0] }

/-- C2: refuted by this reachable execution of the code.  Because `AddTask`
sends the task to the channel **before** incrementing the counter, a worker
can complete the task and decrement first, driving `jobcounter` to `-1`. -/
theorem jobcounter_negative_trace :
    ExecReach 1 c2Neg ∧ c2Neg.jobcounter = -1 ∧ c2Neg.jobcounter < 0 := by
  refine ⟨?_, rfl, by decide⟩
  refine Relation.ReflTransGen.head (ExecStep.enqueue _ rfl rfl (by decide)) ?_
  refine Relation.ReflTransGen.head (ExecStep.takeTask _ 0 [] rfl (by decide)) ?_
  refine Relation.ReflTransGen.head (ExecStep.finishTask _ 0 9 (by decide)) ?_
  exact Relation.ReflTransGen.refl

/-- Quiescent state with one completed task, before any `Close()` call. -/
def c3Quiet : ExecState :=
  { workersTotal := 1, jobcounter := 0, pendingInc := false, queue := [],
    running := [], idle := 1, exited := 0, closed := false,
    results := [(0, 4)], submitted := [0], takenIds := [0] }

/-- The same state after the first `Close()` has closed the jobs channel. -/
def c3Closed : ExecState :=
  { workersTotal := 1, jobcounter := 0, pendingInc := false, queue := [],
    running := [], idle := 1, exited := 0, closed := true,
    results := [(0, 4)], submitted := [0], takenIds := [0] }

/-- C3: refuted by this reachable execution of the code.  From the reachable
quiescent state `c3Quiet`, the first `Close()` succeeds and closes the jobs
channel (`c3Closed`); running `Close()` a second time finds the counter at
zero and executes `close(tasksexecutor.jobs)` on the already-closed channel,
which panics — the second call is neither a no-op nor an error return. -/
theorem close_twice_panics :
    ExecReach 1 c3Quiet ∧
    closeOnce c3Quiet = CloseOutcome.ok c3Closed ∧
    closeOnce c3Closed = CloseOutcome.panicClosedChannel := by
  refine ⟨?_, by decide, by decide⟩
  refine Relation.ReflTransGen.head (ExecStep.enqueue _ rfl rfl (by decide)) ?_
  refine Relation.ReflTransGen.head (ExecStep.incCounter _ rfl) ?_
  refine Relation.ReflTransGen.head (ExecStep.takeTask _ 0 [] rfl (by decide)) ?_
  refine Relation.ReflTransGen.head (ExecStep.finishTask _ 0 4 (by decide)) ?_
  exact Relation.ReflTransGen.refl

/-- State with one finished task: `results[0] = 11` has been stored. -/
def c8Mid : ExecState :=
  { workersTotal := 1, jobcounter := 0, pendingInc := false, queue := [],
    running := [], idle := 1, exited := 0, closed := false,
    results := [(0, 11)], submitted := [0], takenIds := [0] }

/-- Later state of the same run: a second submission reused id 0 and its
completion wrote `results[0] = 22` over the stored entry. -/
def c8End : ExecState :=
  { workersTotal := 1, jobcounter := 0, pendingInc := false, queue := [],
    running := [], idle := 1, exited := 0, closed := false,
    results := [(0, 22), (0, 11)], submitted := [0, 0], takenIds := [0, 0] }

/-- C8: refuted by this reachable execution of the code.  After
`results[0] = 11` is stored (`c8Mid`), later executor operations reach
`c8End`, where the entry under task id `0` reads `22`: the entry was
overwritten, because id reuse (see C1) makes two tasks share the key. -/
theorem resultStore_entry_overwritten :
    ExecReach 1 c8Mid ∧
    getResultByTaskId c8Mid 0 = 11 ∧
    Relation.ReflTransGen ExecStep c8Mid c8End ∧
    getResultByTaskId c8End 0 = 22 ∧
    lookupResult c8End.results 0 ≠ some 11 := by
  refine ⟨?_, by decide, ?_, by decide, by decide⟩
  · refine Relation.ReflTransGen.head (ExecStep.enqueue _ rfl rfl (by decide)) ?_
    refine Relation.ReflTransGen.head (ExecStep.incCounter _ rfl) ?_
    refine Relation.ReflTransGen.head (ExecStep.takeTask _ 0 [] rfl (by decide)) ?_
    refine Relation.ReflTransGen.head (ExecStep.finishTask _ 0 11 (by decide)) ?_
    exact Relation.ReflTransGen.refl
  · refine Relation.ReflTransGen.head (ExecStep.enqueue _ rfl rfl (by decide)) ?_
    refine Relation.ReflTransGen.head (ExecStep.incCounter _ rfl) ?_
    refine Relation.ReflTransGen.head (ExecStep.takeTask _ 0 [] rfl (by decide)) ?_
    refine Relation.ReflTransGen.head (ExecStep.finishTask _ 0 22 (by decide)) ?_
    exact Relation.ReflTransGen.refl

/-- C9: in every reachable state in which `BlockOn()` has returned (the
`WaitGroup` is satisfied: every one of the `workersTotal` workers has called
`wg.Done()` and exited), no worker is still executing, and the multiset of
task ids ever dispatched to a worker coincides with the multiset of ids
written to the results map — every dispatched task finished and its result
write happened before the barrier released. -/
theorem blockOn_join_barrier (workers : Int) (s : ExecState)
    (hreach : ExecReach workers s) (hdone : s.exited = s.workersTotal) :
    s.running = [] ∧ List.Perm s.takenIds (s.results.map Prod.fst) ∧
    ∀ id ∈ s.takenIds, id ∈ s.results.map Prod.fst := by
  obtain ⟨hcount, _, hperm⟩ := workerInv_reach hreach
  have hlen : s.running.length = 0 := by omega
  have hrun : s.running = [] := List.length_eq_zero.mp hlen
  rw [hrun] at hperm
  exact ⟨hrun, hperm, fun id hid => hperm.mem_iff.mp hid⟩

/-- The state of `blockOn_join_barrier`'s witness run: one worker,
`Close()` then worker exit, no tasks. -/
def c9End : ExecState :=
  { workersTotal := 1, jobcounter := 0, pendingInc := false, queue := [],
    running := [], idle := 0, exited := 1, closed := true, results := [],
    submitted := [], takenIds := [] }

/-- Witness for C9 at a concrete run. -/
theorem blockOn_join_barrier_witness :
    c9End.running = [] ∧ List.Perm c9End.takenIds (c9End.results.map Prod.fst) ∧
    ∀ id ∈ c9End.takenIds, id ∈ c9End.results.map Prod.fst :=
  blockOn_join_barrier 1 c9End
    (Relation.ReflTransGen.head (ExecStep.closeQueue _ rfl rfl rfl)
      (Relation.ReflTransGen.head (ExecStep.exitWorker _ rfl rfl (by decide))
        Relation.ReflTransGen.refl))
    rfl

end TaskExec

namespace PortScan

/-- The static port → service table `commonPorts`, entry for entry. -/
def commonPorts : List (Int × String) :=
  [(20, "FTP Data"), (21, "FTP Control"), (22, "SSH"), (23, "Telnet"),
   (25, "SMTP"), (53, "DNS"), (80, "HTTP"), (110, "POP3"), (143, "IMAP"),
   (443, "HTTPS"), (445, "SMB"), (3306, "MySQL"), (3389, "RDP"),
   (5432, "PostgreSQL"), (5900, "VNC")]

/-- `commonPorts[port]` as Go evaluates it: the stored name, or the string
zero value `""` when the key is absent. -/
def serviceFor (port : Int) : String :=
  ((commonPorts.find? (fun e => e.1 == port)).map Prod.snd).getD ""

/-- `ScanResult{Port, Open, Service}`. -/
structure ScanResult where
  Port : Int
  Open : Bool
  Service : String
deriving Repr, DecidableEq

/-- The value `ScanPort(port)` returns.  The outcome of
`net.DialTimeout("tcp", host:port, timeout)` is abstracted as the oracle
`dial : Int → Bool` (`true` iff `err == nil`, i.e. the handshake completed
within the timeout): the result starts as `{port, false, commonPorts[port]}`
and `Open` is set to `true` exactly when the dial succeeded. -/
def scanPortResult (dial : Int → Bool) (port : Int) : ScanResult :=
  let result : ScanResult := { Port := port, Open := false, Service := serviceFor port }
  if dial port then { result with Open := true } else result

/-- Whether `ScanPort(port)` ran `conn.Close()`: the source closes the
connection exactly when the dial succeeded (on failure no connection
exists). -/
def scanPortConnClosed (dial : Int → Bool) (port : Int) : Bool :=
  dial port

lemma find_assoc_of_mem {l : List (Int × String)} {port : Int} {name : String}
    (hnd : l.Pairwise (fun a b => a.1 ≠ b.1)) (h : (port, name) ∈ l) :
    (l.find? (fun e => e.1 == port)).map Prod.snd = some name := by
  induction l with
  | nil => cases h
  | cons a l ih =>
      rcases List.mem_cons.mp h with heq | htail
      · subst heq
        simp
      · have hne : a.1 ≠ port := by
          have := (List.pairwise_cons.mp hnd).1 (port, name) htail
          simpa using this
        rw [List.find?_cons_of_neg _ (by simpa using hne)]
        exact ih (List.pairwise_cons.mp hnd).2 htail

lemma serviceFor_of_mem {port : Int} {name : String}
    (h : (port, name) ∈ commonPorts) : serviceFor port = name := by
  have hnd : commonPorts.Pairwise (fun a b => a.1 ≠ b.1) := by decide
  unfold serviceFor
  rw [find_assoc_of_mem hnd h]
  rfl

lemma serviceFor_of_not_mem {port : Int}
    (h : ∀ name, (port, name) ∉ commonPorts) : serviceFor port = "" := by
  have hn : commonPorts.find? (fun e => e.1 == port) = none := by
    rw [List.find?_eq_none]
    intro x hx hbeq
    have hx1 : x.1 = port := by simpa using hbeq
    exact h x.2 (by rw [← hx1]; exact hx)
  simp [serviceFor, hn]

/-- C5: `ScanPort` returns `Open = true` iff the dial succeeded within the
timeout, closes the connection exactly when one was opened, propagates no
error (the function is total into `ScanResult`), and fills `Service` from
the static table — the stored name for a port in the table, the empty
string for a port outside it. -/
theorem scanPort_spec (dial : Int → Bool) (port : Int) :
    (scanPortResult dial port).Open = dial port ∧
    (scanPortResult dial port).Port = port ∧
    (scanPortResult dial port).Service = serviceFor port ∧
    (dial port = true → scanPortConnClosed dial port = true) ∧
    (dial port = false → (scanPortResult dial port).Open = false) ∧
    (∀ name, (port, name) ∈ commonPorts → (scanPortResult dial port).Service = name) ∧
    ((∀ name, (port, name) ∉ commonPorts) → (scanPortResult dial port).Service = "") := by
  have hres : (scanPortResult dial port).Service = serviceFor port := by
    unfold scanPortResult
    cases dial port <;> rfl
  have hopen : (scanPortResult dial port).Open = dial port := by
    unfold scanPortResult
    cases dial port <;> rfl
  have hport : (scanPortResult dial port).Port = port := by
    unfold scanPortResult
    cases dial port <;> rfl
  refine ⟨hopen, hport, hres, fun h => h, fun h => by rw [hopen, h], ?_, ?_⟩
  · intro name hmem
    rw [hres]
    exact serviceFor_of_mem hmem
  · intro hnot
    rw [hres]
    exact serviceFor_of_not_mem hnot

/-- Witness for C5 at concrete inputs: a dial that succeeds everywhere,
probed at port 22 (in the table: service "SSH") — the success, closing and
lookup clauses all evaluate. -/
theorem scanPort_spec_witness :
    (scanPortResult (fun _ => true) 22).Open = true ∧
    (scanPortResult (fun _ => true) 22).Service = "SSH" ∧
    scanPortConnClosed (fun _ => true) 22 = true ∧
    (scanPortResult (fun _ => false) 8080).Open = false ∧
    (scanPortResult (fun _ => false) 8080).Service = "" := by
  have h22 := scanPort_spec (fun _ => true) 22
  have h8080 := scanPort_spec (fun _ => false) 8080
  refine ⟨h22.1, ?_, h22.2.2.2.1 rfl, h8080.2.2.2.2.1 rfl, ?_⟩
  · exact h22.2.2.2.2.2.1 "SSH" (by decide)
  · refine h8080.2.2.2.2.2.2 (fun name hmem => ?_)
    simp only [commonPorts, List.mem_cons, List.not_mem_nil, or_false,
      Prod.mk.injEq] at hmem
    omega

/-- The capacity `ScanRange` gives both of its channels:
`make(chan int, endPort - startPort + 1)`. -/
def scanRangeChanCap (startPort endPort : Int) : Int :=
  endPort - startPort + 1

/-- Outcome of the Go runtime's `make(chan T, capacity)`: a negative
capacity panics (`makechan: size out of range`). -/
inductive MakeChanOutcome where
  | ok (capacity : Nat)
  | panicSizeOutOfRange
deriving Repr, DecidableEq

/-- `make(chan T, capacity)`. -/
def makeChan (capacity : Int) : MakeChanOutcome :=
  if capacity < 0 then MakeChanOutcome.panicSizeOutOfRange
  else MakeChanOutcome.ok capacity.toNat

/-- C10: for `startPort > endPort + 1` the channel capacity
`endPort - startPort + 1` is negative, so the very first statement of
`ScanRange` — allocating the jobs channel — panics and the function never
returns. -/
theorem scanRange_negative_capacity_panics (startPort endPort : Int)
    (h : startPort > endPort + 1) :
    makeChan (scanRangeChanCap startPort endPort) =
      MakeChanOutcome.panicSizeOutOfRange := by
  unfold makeChan scanRangeChanCap
  rw [if_pos]
  omega

/-- Witness for C10 at `ScanRange(3, 1)`. -/
theorem scanRange_negative_capacity_panics_witness :
    makeChan (scanRangeChanCap 3 1) = MakeChanOutcome.panicSizeOutOfRange :=
  scanRange_negative_capacity_panics 3 1 (by decide)

end PortScan

namespace PortScan

/-- Shared state of one scan-pipeline call (`ScanRange` /
`ScanSpecificPorts` / `scanCommonPorts`): `toSend` is what the sender
goroutine has yet to send, `jobsBuf` the buffered contents of the `jobs`
channel, `busy` the ports currently being probed by busy workers, `idleW` /
`exitedW` the workers blocked on the channel receive / exited after
observing closure, `totalW` the size of the spawned pool, `resultsBuf` the
buffered contents of the `results` channel, `resultsClosed` whether
`close(results)` has run, and `collected` what the collection loop of the
caller has accumulated. -/
structure ScanState where
  toSend : List Int
  jobsBuf : List Int
  jobsClosed : Bool
  busy : List Int
  idleW : Nat
  exitedW : Nat
  totalW : Nat
  resultsBuf : List ScanResult
  resultsClosed : Bool
  collected : List ScanResult
deriving Repr, DecidableEq

/-- One interleaving step of a scan pipeline.  `closesJobs` records whether
the function's sender goroutine ends with `close(jobs)`: it is `true` for
`ScanSpecificPorts` and `scanCommonPorts` and `false` for `ScanRange`,
whose sender goroutine returns without closing the channel.  `cap` is the
capacity both channels are created with.

* `send`: the sender goroutine sends the next port into `jobs`.
* `closeJobs`: the sender goroutine, having sent every port, runs
  `close(jobs)` — only present when the source contains it.
* `takePort` / `finishProbe`: a worker iteration of
  `for port := range jobs { results <- ps.ScanPort(port) }`.
* `exitWorker`: a worker's `range jobs` ends, which per Go semantics
  happens only once the channel is closed and its buffer drained; the
  worker's deferred `wg.Done()` runs.
* `closeResults`: the `wg.Wait(); close(results)` goroutine fires once
  every worker has exited.
* `collect`: the caller's `for result := range results` appends one
  buffered result (buffered items are still delivered after closure). -/
inductive ScanStep (dial : Int → Bool) (closesJobs : Bool) (cap : Nat) :
    ScanState → ScanState → Prop
  | send (s : ScanState) (p : Int) (rest : List Int) (hts : s.toSend = p :: rest)
      (hcap : s.jobsBuf.length < cap) (hopen : s.jobsClosed = false) :
      ScanStep dial closesJobs cap s
        { s with toSend := rest, jobsBuf := s.jobsBuf ++ [p] }
  | closeJobs (s : ScanState) (hc : closesJobs = true) (hts : s.toSend = [])
      (hopen : s.jobsClosed = false) :
      ScanStep dial closesJobs cap s { s with jobsClosed := true }
  | takePort (s : ScanState) (p : Int) (rest : List Int) (hq : s.jobsBuf = p :: rest)
      (hidle : 0 < s.idleW) :
      ScanStep dial closesJobs cap s
        { s with jobsBuf := rest, busy := p :: s.busy, idleW := s.idleW - 1 }
  | finishProbe (s : ScanState) (p : Int) (hbusy : p ∈ s.busy)
      (hcap : s.resultsBuf.length < cap) :
      ScanStep dial closesJobs cap s
        { s with busy := s.busy.erase p,
                 resultsBuf := s.resultsBuf ++ [scanPortResult dial p],
                 idleW := s.idleW + 1 }
  | exitWorker (s : ScanState) (hclosed : s.jobsClosed = true) (hq : s.jobsBuf = [])
      (hidle : 0 < s.idleW) :
      ScanStep dial closesJobs cap s
        { s with idleW := s.idleW - 1, exitedW := s.exitedW + 1 }
  | closeResults (s : ScanState) (hdone : s.exitedW = s.totalW)
      (hopen : s.resultsClosed = false) :
      ScanStep dial closesJobs cap s { s with resultsClosed := true }
  | collect (s : ScanState) (r : ScanResult) (rest : List ScanResult)
      (hq : s.resultsBuf = r :: rest) :
      ScanStep dial closesJobs cap s
        { s with resultsBuf := rest, collected := s.collected ++ [r] }

/-- The pipeline state right after the channels are allocated, the pool is
spawned and the sender goroutine starts. -/
def scanInit (ports : List Int) (workers : Nat) : ScanState :=
  { toSend := ports, jobsBuf := [], jobsClosed := false, busy := [],
    idleW := workers, exitedW := 0, totalW := workers, resultsBuf := [],
    resultsClosed := false, collected := [] }

/-- The ports `for port := startPort; port <= endPort; port++` walks. -/
def portRange (startPort endPort : Int) : List Int :=
  (List.range (endPort + 1 - startPort).toNat).map (fun i => startPort + i)

/-- States the `ScanRange(startPort, endPort)` pipeline can reach.  The
sender goroutine of `ScanRange` contains no `close(jobs)` — unlike those of
`scanCommonPorts` and `ScanSpecificPorts` — so `closesJobs` is `false`. -/
def ScanRangeReach (dial : Int → Bool) (startPort endPort : Int) (workers : Nat)
    (s : ScanState) : Prop :=
  Relation.ReflTransGen
    (ScanStep dial false (scanRangeChanCap startPort endPort).toNat)
    (scanInit (portRange startPort endPort) workers) s

/-- C6: refuted — `ScanRange` can never return.  Because its sender
goroutine never closes the jobs channel, in every reachable state of the
`ScanRange(startPort, endPort)` pipeline with a positive worker pool no
worker has exited and the results channel is still open; the caller's
collection loop `for result := range results` therefore blocks forever and
the function never returns any list, 1024 results or otherwise. -/
theorem scanRange_never_returns (dial : Int → Bool) (startPort endPort : Int)
    (workers : Nat) (hw : 0 < workers) (s : ScanState)
    (hreach : ScanRangeReach dial startPort endPort workers s) :
    s.jobsClosed = false ∧ s.exitedW = 0 ∧ s.resultsClosed = false := by
  have key : s.jobsClosed = false ∧ s.exitedW = 0 ∧ s.resultsClosed = false ∧
      s.totalW = workers := by
    induction hreach with
    | refl => exact ⟨rfl, rfl, rfl, rfl⟩
    | tail _ hstep ih =>
        obtain ⟨h1, h2, h3, h4⟩ := ih
        cases hstep with
        | send p rest hts hcap hopen => exact ⟨h1, h2, h3, h4⟩
        | closeJobs hc hts hopen => exact absurd hc (by decide)
        | takePort p rest hq hidle => exact ⟨h1, h2, h3, h4⟩
        | finishProbe p hbusy hcap => exact ⟨h1, h2, h3, h4⟩
        | exitWorker hclosed hq hidle => exact absurd (h1.symm.trans hclosed) (by decide)
        | closeResults hdone hopen =>
            exfalso
            rw [h2, h4] at hdone
            omega
        | collect r rest hq => exact ⟨h1, h2, h3, h4⟩
  exact ⟨key.1, key.2.1, key.2.2.1⟩

/-- Witness for C6 at `ScanRange(1, 1024)` with one worker, at the initial
state of the pipeline. -/
theorem scanRange_never_returns_witness :
    (scanInit (portRange 1 1024) 1).jobsClosed = false ∧
    (scanInit (portRange 1 1024) 1).exitedW = 0 ∧
    (scanInit (portRange 1 1024) 1).resultsClosed = false :=
  scanRange_never_returns (fun _ => false) 1 1024 1 (by decide) _
    Relation.ReflTransGen.refl

end PortScan

namespace PortScan

/-- The comparison `sort.Slice` is given: ascending by `Port`. -/
def portLe (a b : ScanResult) : Prop := a.Port ≤ b.Port

instance : DecidableRel portLe :=
  fun a b => inferInstanceAs (Decidable (a.Port ≤ b.Port))

instance : IsTotal ScanResult portLe :=
  ⟨fun a b => le_total a.Port b.Port⟩

instance : IsTrans ScanResult portLe :=
  ⟨fun _ _ _ h1 h2 => le_trans h1 h2⟩

/-- The final `sort.Slice(scanResults, func(i, j) { Port i < Port j })` of
each scan function: a sort ascending by port.  (`sort.Slice` is an
unspecified unstable sort; on the inputs of the claims all ports are
distinct, so every sort ascending by port produces the same list, and an
insertion sort represents it.) -/
def sortByPort (l : List ScanResult) : List ScanResult :=
  List.insertionSort portLe l

/-- The explicit port list of the third scan phase of `main`:
`specificPorts := []int{22, 80, 443, 3000, 5432}`. -/
def specificPorts : List Int := [22, 80, 443, 3000, 5432]

/-- States the `ScanSpecificPorts(ports)` pipeline can reach: its channels
have capacity `len(ports)` and its sender goroutine does close the jobs
channel after sending every port. -/
def ScanSpecificReach (dial : Int → Bool) (ports : List Int) (workers : Nat)
    (s : ScanState) : Prop :=
  Relation.ReflTransGen (ScanStep dial true ports.length)
    (scanInit ports workers) s

/-- The multiset of ports currently anywhere in the pipeline: not yet sent,
buffered in `jobs`, being probed, buffered in `results`, or collected. -/
def scanBag (s : ScanState) : Multiset Int :=
  (s.toSend : Multiset Int) + ↑s.jobsBuf + ↑s.busy +
    ↑(s.resultsBuf.map ScanResult.Port) + ↑(s.collected.map ScanResult.Port)

lemma scanPortResult_Port (dial : Int → Bool) (p : Int) :
    (scanPortResult dial p).Port = p := by
  unfold scanPortResult
  cases dial p <;> rfl

/-- Invariant of every scan pipeline: worker accounting adds up, closure
facts propagate, and the multiset of ports in flight is conserved. -/
def ScanInv (workers : Nat) (ports : List Int) (s : ScanState) : Prop :=
  s.totalW = workers ∧
  s.idleW + s.busy.length + s.exitedW = s.totalW ∧
  (s.jobsClosed = true → s.toSend = []) ∧
  (0 < s.exitedW → s.jobsClosed = true) ∧
  (s.exitedW = s.totalW → 0 < s.totalW → s.jobsBuf = []) ∧
  (s.resultsClosed = true → s.exitedW = s.totalW) ∧
  scanBag s = ↑ports

lemma scanInv_init (workers : Nat) (ports : List Int) :
    ScanInv workers ports (scanInit ports workers) := by
  refine ⟨rfl, by simp [scanInit], ?_, ?_, ?_, ?_, ?_⟩
  · intro h
    simp [scanInit] at h
  · intro h
    simp [scanInit] at h
  · intro h hp
    rfl
  · intro h
    simp [scanInit] at h
  · simp [scanBag, scanInit]

lemma scanInv_step {dial : Int → Bool} {closesJobs : Bool} {cap workers : Nat}
    {ports : List Int} {s t : ScanState}
    (h : ScanInv workers ports s) (hst : ScanStep dial closesJobs cap s t) :
    ScanInv workers ports t := by
  obtain ⟨h0, h1, h2, h3, h4, h5, h6⟩ := h
  cases hst with
  | send p rest hts hcap hopen =>
      refine ⟨h0, h1, ?_, h3, ?_, h5, ?_⟩
      · exact fun hc => absurd (hopen.symm.trans hc) (by decide)
      · show s.exitedW = s.totalW → 0 < s.totalW → s.jobsBuf ++ [p] = []
        intro he hp
        exact absurd (hopen.symm.trans (h3 (by omega))) (by decide)
      · dsimp only [scanBag] at h6 ⊢
        rw [hts] at h6
        rw [← h6]
        simp only [← Multiset.coe_add, ← Multiset.cons_coe,
          ← Multiset.singleton_add, Multiset.coe_nil]
        abel
  | closeJobs hc hts hopen =>
      exact ⟨h0, h1, fun _ => hts, fun _ => rfl, h4, h5, h6⟩
  | takePort p rest hq hidle =>
      refine ⟨h0, ?_, h2, h3, ?_, h5, ?_⟩
      · show s.idleW - 1 + (p :: s.busy).length + s.exitedW = s.totalW
        simp only [List.length_cons]
        omega
      · show s.exitedW = s.totalW → 0 < s.totalW → rest = []
        intro he hp
        exfalso
        omega
      · dsimp only [scanBag] at h6 ⊢
        rw [hq] at h6
        rw [← h6]
        simp only [← Multiset.coe_add, ← Multiset.cons_coe,
          ← Multiset.singleton_add, Multiset.coe_nil]
        abel
  | finishProbe p hbusy hcap =>
      have hpos : 0 < s.busy.length := List.length_pos.mpr (List.ne_nil_of_mem hbusy)
      refine ⟨h0, ?_, h2, h3, h4, h5, ?_⟩
      · show s.idleW + 1 + (s.busy.erase p).length + s.exitedW = s.totalW
        rw [List.length_erase_of_mem hbusy]
        omega
      · have hb : p ::ₘ (↑s.busy : Multiset Int).erase p = ↑s.busy :=
          Multiset.cons_erase (show p ∈ (↑s.busy : Multiset Int) from hbusy)
        dsimp only [scanBag] at h6 ⊢
        rw [← h6]
        conv_rhs => rw [← hb]
        rw [← Multiset.coe_erase]
        simp only [List.map_append, List.map_cons, List.map_nil,
          scanPortResult_Port, ← Multiset.coe_add, ← Multiset.cons_coe,
          ← Multiset.singleton_add, Multiset.coe_nil]
        abel
  | exitWorker hclosed hq hidle =>
      refine ⟨h0, ?_, h2, fun _ => hclosed, fun _ _ => hq, ?_, h6⟩
      · show s.idleW - 1 + s.busy.length + (s.exitedW + 1) = s.totalW
        omega
      · show s.resultsClosed = true → s.exitedW + 1 = s.totalW
        intro hr
        have hx := h5 hr
        omega
  | closeResults hdone hopen =>
      exact ⟨h0, h1, h2, h3, h4, fun _ => hdone, h6⟩
  | collect r rest hq =>
      refine ⟨h0, h1, h2, h3, h4, h5, ?_⟩
      dsimp only [scanBag] at h6 ⊢
      rw [hq] at h6
      rw [← h6]
      simp only [List.map_append, List.map_cons, List.map_nil,
        ← Multiset.coe_add, ← Multiset.cons_coe, ← Multiset.singleton_add,
        Multiset.coe_nil]
      abel

lemma scanInv_reach {dial : Int → Bool} {ports : List Int} {workers : Nat}
    {s : ScanState} (h : ScanSpecificReach dial ports workers s) :
    ScanInv workers ports s := by
  induction h with
  | refl => exact scanInv_init workers ports
  | tail _ hstep ih => exact scanInv_step ih hstep

end PortScan

namespace PortScan

/-- C7: in every state of the `ScanSpecificPorts([22,80,443,3000,5432])`
pipeline (any positive worker count, any dial outcomes, any interleaving of
submission, probe completion and collection) in which the function is about
to return — the results channel is closed and drained — the sorted list it
returns has exactly 5 entries whose port numbers are, in order,
`[22, 80, 443, 3000, 5432]`. -/
theorem scanSpecificPorts_sorted (dial : Int → Bool) (workers : Nat) (s : ScanState)
    (hw : 0 < workers)
    (hreach : ScanSpecificReach dial specificPorts workers s)
    (hclosed : s.resultsClosed = true) (hdrained : s.resultsBuf = []) :
    (sortByPort s.collected).map ScanResult.Port = [22, 80, 443, 3000, 5432] ∧
    s.collected.length = 5 := by
  obtain ⟨h0, h1, h2, h3, h4, h5, h6⟩ := scanInv_reach hreach
  have hex : s.exitedW = s.totalW := h5 hclosed
  have htpos : 0 < s.totalW := by omega
  have hbusy : s.busy = [] := by
    have hlen : s.busy.length = 0 := by omega
    exact List.length_eq_zero.mp hlen
  have hjobs : s.jobsBuf = [] := h4 hex htpos
  have hjc : s.jobsClosed = true := h3 (by omega)
  have hsend : s.toSend = [] := h2 hjc
  have hbag : (↑(s.collected.map ScanResult.Port) : Multiset Int) = ↑specificPorts := by
    dsimp only [scanBag] at h6
    rw [hsend, hjobs, hbusy, hdrained] at h6
    simpa using h6
  have hperm : List.Perm (s.collected.map ScanResult.Port) specificPorts :=
    Multiset.coe_eq_coe.mp hbag
  have hsperm : List.Perm ((sortByPort s.collected).map ScanResult.Port) specificPorts :=
    ((List.perm_insertionSort portLe s.collected).map ScanResult.Port).trans hperm
  have hsorted : List.Sorted (· ≤ ·) ((sortByPort s.collected).map ScanResult.Port) :=
    List.Pairwise.map ScanResult.Port (fun a b hab => hab)
      (List.sorted_insertionSort portLe s.collected)
  have htarget : List.Sorted (· ≤ ·) specificPorts := by decide
  refine ⟨List.eq_of_perm_of_sorted hsperm hsorted htarget, ?_⟩
  have hlen := hperm.length_eq
  simpa using hlen

/-- Final pipeline state of the witness run of
`ScanSpecificPorts([22,80,443,3000,5432])` with one worker and a dial that
fails everywhere. -/
def c7End : ScanState :=
  { toSend := [], jobsBuf := [], jobsClosed := true, busy := [], idleW := 0,
    exitedW := 1, totalW := 1, resultsBuf := [], resultsClosed := true,
    collected :=
      [{ Port := 22, Open := false, Service := "SSH" },
       { Port := 80, Open := false, Service := "HTTP" },
       { Port := 443, Open := false, Service := "HTTPS" },
       { Port := 3000, Open := false, Service := "" },
       { Port := 5432, Open := false, Service := "PostgreSQL" }] }

/-- Witness for C7 at a concrete complete run of the pipeline. -/
theorem scanSpecificPorts_sorted_witness :
    (sortByPort c7End.collected).map ScanResult.Port = [22, 80, 443, 3000, 5432] ∧
    c7End.collected.length = 5 := by
  refine scanSpecificPorts_sorted (fun _ => false) 1 c7End (by decide) ?_ rfl rfl
  refine Relation.ReflTransGen.head (ScanStep.send _ 22 _ rfl (by decide) rfl) ?_
  refine Relation.ReflTransGen.head (ScanStep.send _ 80 _ rfl (by decide) rfl) ?_
  refine Relation.ReflTransGen.head (ScanStep.send _ 443 _ rfl (by decide) rfl) ?_
  refine Relation.ReflTransGen.head (ScanStep.send _ 3000 _ rfl (by decide) rfl) ?_
  refine Relation.ReflTransGen.head (ScanStep.send _ 5432 _ rfl (by decide) rfl) ?_
  refine Relation.ReflTransGen.head (ScanStep.closeJobs _ rfl rfl rfl) ?_
  refine Relation.ReflTransGen.head (ScanStep.takePort _ 22 _ rfl (by decide)) ?_
  refine Relation.ReflTransGen.head (ScanStep.finishProbe _ 22 (by decide) (by decide)) ?_
  refine Relation.ReflTransGen.head (ScanStep.takePort _ 80 _ rfl (by decide)) ?_
  refine Relation.ReflTransGen.head (ScanStep.finishProbe _ 80 (by decide) (by decide)) ?_
  refine Relation.ReflTransGen.head (ScanStep.takePort _ 443 _ rfl (by decide)) ?_
  refine Relation.ReflTransGen.head (ScanStep.finishProbe _ 443 (by decide) (by decide)) ?_
  refine Relation.ReflTransGen.head (ScanStep.takePort _ 3000 _ rfl (by decide)) ?_
  refine Relation.ReflTransGen.head (ScanStep.finishProbe _ 3000 (by decide) (by decide)) ?_
  refine Relation.ReflTransGen.head (ScanStep.takePort _ 5432 _ rfl (by decide)) ?_
  refine Relation.ReflTransGen.head (ScanStep.finishProbe _ 5432 (by decide) (by decide)) ?_
  refine Relation.ReflTransGen.head (ScanStep.exitWorker _ rfl rfl (by decide)) ?_
  refine Relation.ReflTransGen.head (ScanStep.closeResults _ rfl rfl) ?_
  refine Relation.ReflTransGen.head (ScanStep.collect _ _ _ rfl) ?_
  refine Relation.ReflTransGen.head (ScanStep.collect _ _ _ rfl) ?_
  refine Relation.ReflTransGen.head (ScanStep.collect _ _ _ rfl) ?_
  refine Relation.ReflTransGen.head (ScanStep.collect _ _ _ rfl) ?_
  refine Relation.ReflTransGen.head (ScanStep.collect _ _ _ rfl) ?_
  exact Relation.ReflTransGen.refl

end PortScan
